import Mathlib

/-!
Verification of the OpenAI-handler helpers
(`mindsdb/integrations/handlers/openai_handler/helpers.py`):
the exponential-backoff retry wrapper, the token-budget message truncator
and the token counter.  Python dictionaries holding the chat messages are
embedded as ordered association lists, the tiktoken encoder as an abstract
function from strings to token lists, floats as rationals (reals where a
logarithm is involved), and the retry loop — bounded by `max_retries` —
as a structurally recursive function on the remaining retry budget.
-/

namespace OpenAIHelpers

/-- A chat message: a Python dict with string keys and values, embedded as
an ordered association list (iteration order of `message.items()`). -/
abbrev Message := List (String × String)

/-- Tests whether `sub` is an initial segment of `l`. -/
def listPrefixOf : List Char → List Char → Bool
  | [], _ => true
  | _ :: _, [] => false
  | a :: as, b :: bs => a == b && listPrefixOf as bs

/-- Tests whether `sub` occurs contiguously in `l`. -/
def listInfixOf (sub : List Char) : List Char → Bool
  | [] => listPrefixOf sub []
  | b :: bs => listPrefixOf sub (b :: bs) || listInfixOf sub bs

/-- Embeds the Python substring test `sub in s`. -/
def strContains (s sub : String) : Bool :=
  listInfixOf sub.toList s.toList

instance {ε α : Type} [DecidableEq ε] [DecidableEq α] : DecidableEq (Except ε α) :=
  fun x y =>
  match x, y with
  | Except.ok a, Except.ok b =>
    if h : a = b then isTrue (by rw [h])
    else isFalse (by intro hc; cases hc; exact h rfl)
  | Except.ok _, Except.error _ => isFalse (by intro hc; cases hc)
  | Except.error _, Except.ok _ => isFalse (by intro hc; cases hc)
  | Except.error e, Except.error f =>
    if h : e = f then isTrue (by rw [h])
    else isFalse (by intro hc; cases hc; exact h rfl)

/-- Contribution of one message in `count_tokens`: the Python loop body
`num_tokens += 4` followed by, for each item, `num_tokens +=
len(encoder.encode(value))` and `num_tokens += -1` when the key is
`"name"`. -/
def messageTokens (encoder : String → List Nat) (m : Message) : Int :=
  m.foldl (fun acc kv =>
    acc + ((encoder kv.2).length : Int) + (if kv.1 = "name" then -1 else 0)) 4

/-- Embedding of `count_tokens(messages, encoder, model_name)`: for a model whose name
contains `"gpt-3.5-turbo"`, sums the per-message contributions and adds the
final reply-priming 2; otherwise raises `NotImplementedError` naming the
model (embedded as `Except.error` carrying the message). -/
def count_tokens (messages : List Message) (encoder : String → List Nat)
    (model_name : String) : Except String Int :=
  if strContains model_name "gpt-3.5-turbo" then
    Except.ok ((messages.foldl (fun acc m => acc + messageTokens encoder m) 0) + 2)
  else
    Except.error
      ("_count_tokens() is not presently implemented for model " ++ model_name ++ ".")

/-- The `while n_tokens > max_tokens` loop of `truncate_msgs_for_token_limit`,
with an explicit fuel bounding the number of iterations: `none` means the
fuel ran out (in Python, the corresponding iterations simply keep running),
`some (Except.error e)` a raised `NotImplementedError` from `count_tokens`,
and `some (Except.ok r)` a normal return.  `sys_priming` is the slice
`messages[0:1]` of the original argument, captured before the loop. -/
def truncLoop (encoder : String → List Nat) (model_name : String)
    (max_tokens : Int) (truncate : String) (sys_priming : List Message) :
    Nat → List Message → Option (Except String (List Message))
  | 0, _ => none
  | fuel + 1, messages =>
    match count_tokens messages encoder model_name with
    | Except.error e => some (Except.error e)
    | Except.ok n_tokens =>
      if max_tokens < n_tokens then
        if messages.length = 2 then
          some (Except.ok messages.dropLast)
        else if messages.length = 1 then
          some (Except.ok messages)
        else
          truncLoop encoder model_name max_tokens truncate sys_priming fuel
            (if truncate = "first" then sys_priming ++ messages.drop 2
             else sys_priming ++ (messages.drop 1).dropLast)
      else some (Except.ok messages)

/-- Embedding of `truncate_msgs_for_token_limit`
with the encoder passed explicitly (the Python code obtains it from
`tiktoken.encoding_for_model(model_name)`).  The fuel `messages.length + 1`
is sufficient for every nonempty input, since each non-terminal loop
iteration shortens the list by one message. -/
def truncate_msgs_for_token_limit (messages : List Message)
    (encoder : String → List Nat) (model_name : String) (max_tokens : Int)
    (truncate : String) : Option (Except String (List Message)) :=
  truncLoop encoder model_name max_tokens truncate (messages.take 1)
    (messages.length + 1) messages

/-! ### The retry wrapper (`retry_with_exponential_backoff`) -/

/-- Classification of an exception raised by one invocation of the wrapped
operation, following the `except` clauses of `wrapper`:
`wait` covers `wait_errors` (`APITimeoutError`, `APIConnectionError`,
`PendingFT`), `status` covers `status_errors` (`APIStatusError`,
`APIResponseValidationError`) with its `status_code` and the optional
`"message"` entry of the response `body`, `openaiErr` any other
`openai.OpenAIError` (carrying `str(e)`), and `other` any other
exception. -/
inductive ApiError where
  | wait : ApiError
  | status (status_code : Int) (bodyMessage : Option String) : ApiError
  | openaiErr (msg : String) : ApiError
  | other (msg : String) : ApiError
deriving DecidableEq

/-- How one call of the retry wrapper ends: the value of the wrapped function,
or one of the exceptions the wrapper raises (carrying the exact message
string it formats), or an unrecognized exception re-raised unchanged. -/
inductive RetryResult (α : Type) where
  | ok (v : α) : RetryResult α
  | requestRejected (msg : String) : RetryResult α
  | retriesExhausted (msg : String) : RetryResult α
  | generalAPIError (msg : String) : RetryResult α
  | propagated (msg : String) : RetryResult α
deriving DecidableEq

/-- Documentation-pointer fallback used in the wrapper messages. -/
def docPointer : String :=
  "Please refer to `https://platform.openai.com/docs/guides/error-codes` for more information."

/-- The message of the exception raised on a status error:
`Error status {e.status_code} raised by OpenAI API: {e.body.get("message", ...)}`. -/
def statusErrorMsg (status_code : Int) (bodyMessage : Option String) : String :=
  "Error status " ++ toString status_code ++ " raised by OpenAI API: " ++
    bodyMessage.getD docPointer

/-- The message of the exception raised on retry exhaustion:
`Maximum number of retries ({max_retries}) exceeded.` -/
def retriesExhaustedMsg (max_retries : Nat) : String :=
  "Maximum number of retries (" ++ toString max_retries ++ ") exceeded."

/-- The message of the exception raised on an unclassified `OpenAIError`:
`General {str(e)} error raised by OpenAI. ...`. -/
def generalErrorMsg (msg : String) : String :=
  "General " ++ msg ++ " error raised by OpenAI. " ++ docPointer

/-- Everything observable about one run of the wrapper: its outcome, the
list of `time.sleep` durations in order, and how many times the wrapped
operation was invoked. -/
structure RunResult (α : Type) where
  result : RetryResult α
  waits : List ℚ
  calls : Nat
deriving DecidableEq

/-- The `while True` loop of `wrapper`.  The wrapped operation is embedded
as a function `op` from the invocation index (0-based) to the outcome of
that invocation; `random.random()` as a stream `rand` of draws in `[0,1)` indexed by
the invocation after which the delay is updated.  The loop raises
`RetriesExhausted` as soon as `num_retries` would exceed `max_retries`, so
the remaining retry budget `fuel` (initially `max_retries`) decreases on
every wait-and-retry step: `fuel = 0` means the next wait-class error is
fatal.  `delay` is the current delay; on a retry the code runs
`delay *= exponential_base * (1 + jitter * random.random())` and then
sleeps for `delay` seconds. -/
def runRetry {α : Type} (op : Nat → Except ApiError α) (base : ℚ)
    (jitter : Bool) (rand : Nat → ℚ) (max_retries : Nat) :
    Nat → Nat → ℚ → RunResult α
  | 0, attempt, _ =>
    match op attempt with
    | Except.ok v => ⟨RetryResult.ok v, [], 1⟩
    | Except.error (ApiError.status c b) =>
      ⟨RetryResult.requestRejected (statusErrorMsg c b), [], 1⟩
    | Except.error ApiError.wait =>
      ⟨RetryResult.retriesExhausted (retriesExhaustedMsg max_retries), [], 1⟩
    | Except.error (ApiError.openaiErr m) =>
      ⟨RetryResult.generalAPIError (generalErrorMsg m), [], 1⟩
    | Except.error (ApiError.other m) =>
      ⟨RetryResult.propagated m, [], 1⟩
  | fuel + 1, attempt, delay =>
    match op attempt with
    | Except.ok v => ⟨RetryResult.ok v, [], 1⟩
    | Except.error (ApiError.status c b) =>
      ⟨RetryResult.requestRejected (statusErrorMsg c b), [], 1⟩
    | Except.error ApiError.wait =>
      let d := delay * (base * (1 + (if jitter then rand attempt else 0)))
      let r := runRetry op base jitter rand max_retries fuel (attempt + 1) d
      ⟨r.result, d :: r.waits, r.calls + 1⟩
    | Except.error (ApiError.openaiErr m) =>
      ⟨RetryResult.generalAPIError (generalErrorMsg m), [], 1⟩
    | Except.error (ApiError.other m) =>
      ⟨RetryResult.propagated m, [], 1⟩

/-- One call of `wrapper(*args, **kwargs)`: `num_retries = 0`,
`delay = initial_delay`, then the retry loop with the given
`max_retries`. -/
def retry_wrapper {α : Type} (op : Nat → Except ApiError α)
    (initial_delay : ℚ) (base : ℚ) (jitter : Bool) (rand : Nat → ℚ)
    (max_retries : Nat) : RunResult α :=
  runRetry op base jitter rand max_retries max_retries 0 initial_delay

/-- The `max_retries` computation at the top of `wrapper`:
`round(log((hour_budget * 3600) / initial_delay) / log(exponential_base))`,
with the `except ValueError` fallback to 10 when `math.log` is applied to a
non-positive argument, then `max(1, max_retries)`.  The Python guard for a
non-numeric `hour_budget` (also falling back to 10) has no counterpart
here, where `hour_budget` is a real by type; a zero `initial_delay` would
raise an uncaught `ZeroDivisionError` in Python and is outside the
faithful domain of this definition. -/
noncomputable def compute_max_retries
    (initial_delay hour_budget exponential_base : ℝ) : Int :=
  if (hour_budget * 3600) / initial_delay ≤ 0 ∨ exponential_base ≤ 0 then
    max 1 10
  else
    max 1 (round (Real.log ((hour_budget * 3600) / initial_delay) /
      Real.log exponential_base))

/-- Always-failing operation used to witness the exhaustion theorem. -/
def alwaysWaitOp : Nat → Except ApiError Nat :=
  fun _ => Except.error ApiError.wait

/-- Constant-zero stream standing in for `random.random()` draws. -/
def zeroRand : Nat → ℚ :=
  fun _ => 0

/-- Operation that raises a wait-class error on its first two invocations
and then returns 37. -/
def succAfterTwoOp : Nat → Except ApiError Nat :=
  fun i => if i < 2 then Except.error ApiError.wait else Except.ok 37

/-- Operation rejected with HTTP status 404 on every invocation. -/
def statusOp : Nat → Except ApiError Nat :=
  fun _ => Except.error (ApiError.status 404 none)

/-- Concrete one-token-per-character encoder used in witnesses, standing in
for the stub encoder of the spec mapping each character to one token. -/
def charEncoder : String → List Nat :=
  fun s => s.toList.map Char.toNat

/-- Per-message token count as the spec phrases it: 4 plus the encoded
length of every field value, minus 1 if a name field is present; written
independently of `count_tokens` for comparison. -/
def specMessageTokens (encoder : String → List Nat) (m : Message) : Int :=
  4 + (m.map (fun kv => ((encoder kv.2).length : Int))).sum -
    (if m.any (fun kv => kv.1 == "name") then 1 else 0)

/-- Whole-sequence token count as the spec phrases it: the per-message sums
plus a final 2 for priming the assistant reply. -/
def specTokenCount (encoder : String → List Nat) (messages : List Message) : Int :=
  (messages.map (specMessageTokens encoder)).sum + 2

/-! ### Unfolding lemmas for the retry loop -/

theorem runRetry_ok {α : Type} {op : Nat → Except ApiError α} {attempt : Nat} {v : α}
    (base : ℚ) (jitter : Bool) (rand : Nat → ℚ) (max_retries fuel : Nat) (delay : ℚ)
    (h : op attempt = Except.ok v) :
    runRetry op base jitter rand max_retries fuel attempt delay =
      ⟨RetryResult.ok v, [], 1⟩ := by
  cases fuel <;> (simp only [runRetry]; rw [h])

theorem runRetry_status {α : Type} {op : Nat → Except ApiError α} {attempt : Nat}
    {c : Int} {b : Option String}
    (base : ℚ) (jitter : Bool) (rand : Nat → ℚ) (max_retries fuel : Nat) (delay : ℚ)
    (h : op attempt = Except.error (ApiError.status c b)) :
    runRetry op base jitter rand max_retries fuel attempt delay =
      ⟨RetryResult.requestRejected (statusErrorMsg c b), [], 1⟩ := by
  cases fuel <;> (simp only [runRetry]; rw [h])

theorem runRetry_wait_zero {α : Type} {op : Nat → Except ApiError α} {attempt : Nat}
    (base : ℚ) (jitter : Bool) (rand : Nat → ℚ) (max_retries : Nat) (delay : ℚ)
    (h : op attempt = Except.error ApiError.wait) :
    runRetry op base jitter rand max_retries 0 attempt delay =
      ⟨RetryResult.retriesExhausted (retriesExhaustedMsg max_retries), [], 1⟩ := by
  simp only [runRetry]
  rw [h]

theorem runRetry_wait_succ {α : Type} {op : Nat → Except ApiError α} {attempt : Nat}
    (base : ℚ) (jitter : Bool) (rand : Nat → ℚ) (max_retries fuel : Nat) (delay : ℚ)
    (h : op attempt = Except.error ApiError.wait) :
    runRetry op base jitter rand max_retries (fuel + 1) attempt delay =
      ⟨(runRetry op base jitter rand max_retries fuel (attempt + 1)
          (delay * (base * (1 + (if jitter then rand attempt else 0))))).result,
        delay * (base * (1 + (if jitter then rand attempt else 0))) ::
          (runRetry op base jitter rand max_retries fuel (attempt + 1)
            (delay * (base * (1 + (if jitter then rand attempt else 0))))).waits,
        (runRetry op base jitter rand max_retries fuel (attempt + 1)
          (delay * (base * (1 + (if jitter then rand attempt else 0))))).calls + 1⟩ := by
  simp only [runRetry]
  rw [h]

theorem runRetry_allWait {α : Type} (op : Nat → Except ApiError α)
    (base : ℚ) (jitter : Bool) (rand : Nat → ℚ) (max_retries : Nat)
    (hop : ∀ i, op i = Except.error ApiError.wait) :
    ∀ (fuel attempt : Nat) (delay : ℚ),
      (runRetry op base jitter rand max_retries fuel attempt delay).result =
          RetryResult.retriesExhausted (retriesExhaustedMsg max_retries) ∧
        (runRetry op base jitter rand max_retries fuel attempt delay).calls = fuel + 1 ∧
        (runRetry op base jitter rand max_retries fuel attempt delay).waits.length =
          fuel := by
  intro fuel
  induction fuel with
  | zero =>
    intro attempt delay
    rw [runRetry_wait_zero base jitter rand max_retries delay (hop attempt)]
    exact ⟨rfl, rfl, rfl⟩
  | succ f ih =>
    intro attempt delay
    rw [runRetry_wait_succ base jitter rand max_retries f delay (hop attempt)]
    obtain ⟨h1, h2, h3⟩ := ih (attempt + 1)
      (delay * (base * (1 + (if jitter then rand attempt else 0))))
    exact ⟨h1, by rw [h2], by simpa using h3⟩

/-- C1: an operation that raises a wait-class error on every invocation makes
the wrapper invoke it exactly `max_retries + 1` times, fail with the
`RetriesExhausted` message naming `max_retries`, and sleep exactly
`max_retries` times. -/
theorem retry_allWait_exhausts {α : Type} (op : Nat → Except ApiError α)
    (initial_delay base : ℚ) (jitter : Bool) (rand : Nat → ℚ) (max_retries : Nat)
    (hop : ∀ i, op i = Except.error ApiError.wait) :
    (retry_wrapper op initial_delay base jitter rand max_retries).result =
        RetryResult.retriesExhausted (retriesExhaustedMsg max_retries) ∧
      (retry_wrapper op initial_delay base jitter rand max_retries).calls =
        max_retries + 1 ∧
      (retry_wrapper op initial_delay base jitter rand max_retries).waits.length =
        max_retries :=
  runRetry_allWait op base jitter rand max_retries hop max_retries 0 initial_delay

theorem retry_allWait_exhausts_witness :
    (retry_wrapper alwaysWaitOp 1 2 false zeroRand 2).result =
        RetryResult.retriesExhausted (retriesExhaustedMsg 2) ∧
      (retry_wrapper alwaysWaitOp 1 2 false zeroRand 2).calls = 2 + 1 ∧
      (retry_wrapper alwaysWaitOp 1 2 false zeroRand 2).waits.length = 2 :=
  retry_allWait_exhausts alwaysWaitOp 1 2 false zeroRand 2 (fun _ => rfl)

theorem runRetry_waitsThenOk {α : Type} (op : Nat → Except ApiError α)
    (base : ℚ) (rand : Nat → ℚ) (max_retries : Nat) (v : α) :
    ∀ (k fuel attempt : Nat) (delay : ℚ),
      (∀ i, i < k → op (attempt + i) = Except.error ApiError.wait) →
      op (attempt + k) = Except.ok v → k ≤ fuel →
      runRetry op base false rand max_retries fuel attempt delay =
        ⟨RetryResult.ok v,
          (List.range k).map (fun i => delay * base ^ (i + 1)), k + 1⟩ := by
  intro k
  induction k with
  | zero =>
    intro fuel attempt delay _ hok _
    rw [runRetry_ok base false rand max_retries fuel delay (by simpa using hok)]
    simp
  | succ n ih =>
    intro fuel attempt delay hwait hok hle
    obtain ⟨f, rfl⟩ : ∃ f, fuel = f + 1 := ⟨fuel - 1, by omega⟩
    rw [runRetry_wait_succ base false rand max_retries f delay
      (by simpa using hwait 0 (Nat.succ_pos n))]
    rw [ih f (attempt + 1) (delay * (base * (1 + (if false then rand attempt else 0))))
      (fun i hi => by
        rw [show attempt + 1 + i = attempt + (i + 1) by omega]
        exact hwait (i + 1) (by omega))
      (by rw [show attempt + 1 + n = attempt + (n + 1) by omega]; exact hok)
      (by omega)]
    have hstep : ∀ i : Nat,
        delay * (base * (1 + (if false then rand attempt else 0))) * base ^ (i + 1) =
          delay * base ^ (i + 1 + 1) := by
      intro i
      simp only [Bool.false_eq_true, if_false]
      ring
    simp [List.range_succ_eq_map, List.map_map, Function.comp, hstep]
    intro a _
    ring

/-- C2: an operation that raises a wait-class error on exactly its first `k`
invocations, `k ≤ max_retries`, and then returns `v`, makes the wrapper
return `v` after `k + 1` invocations with exactly `k` sleeps; with jitter
off the `i`-th sleep (0-based) lasts `initial_delay * base ^ (i + 1)`
seconds — the first `initial_delay * base`, each next one the previous
multiplied by `base`, so for positive delay and `base > 1` consecutive
sleeps strictly increase with ratio exactly (hence at least) `base`. -/
theorem retry_succeeds_after_k_waits {α : Type} (op : Nat → Except ApiError α)
    (initial_delay base : ℚ) (rand : Nat → ℚ) (max_retries k : Nat) (v : α)
    (hwait : ∀ i, i < k → op i = Except.error ApiError.wait)
    (hok : op k = Except.ok v) (hk : k ≤ max_retries)
    (hd : 0 < initial_delay) (hb : 1 < base) :
    (retry_wrapper op initial_delay base false rand max_retries).result =
        RetryResult.ok v ∧
      (retry_wrapper op initial_delay base false rand max_retries).waits =
        (List.range k).map (fun i => initial_delay * base ^ (i + 1)) ∧
      (retry_wrapper op initial_delay base false rand max_retries).waits.length = k ∧
      (retry_wrapper op initial_delay base false rand max_retries).calls = k + 1 ∧
      (0 < k →
        (retry_wrapper op initial_delay base false rand max_retries).waits.get? 0 =
          some (initial_delay * base)) ∧
      ∀ i, i + 1 < k →
        (retry_wrapper op initial_delay base false rand max_retries).waits.get? i =
            some (initial_delay * base ^ (i + 1)) ∧
          (retry_wrapper op initial_delay base false rand max_retries).waits.get?
              (i + 1) =
            some (initial_delay * base ^ (i + 1) * base) ∧
          initial_delay * base ^ (i + 1) <
            initial_delay * base ^ (i + 1) * base := by
  have hrun : retry_wrapper op initial_delay base false rand max_retries =
      ⟨RetryResult.ok v,
        (List.range k).map (fun i => initial_delay * base ^ (i + 1)), k + 1⟩ :=
    runRetry_waitsThenOk op base rand max_retries v k max_retries 0 initial_delay
      (fun i hi => by simpa using hwait i hi) (by simpa using hok) hk
  rw [hrun]
  have hget : ∀ i, i < k →
      ((List.range k).map (fun i => initial_delay * base ^ (i + 1))).get? i =
        some (initial_delay * base ^ (i + 1)) := by
    intro i hi
    rw [List.get?_map, List.get?_range hi]
    rfl
  refine ⟨rfl, rfl, by simp, rfl, fun hkpos => by simpa using hget 0 hkpos,
    fun i hi => ⟨hget i (by omega), ?_, ?_⟩⟩
  · rw [hget (i + 1) hi]
    have : initial_delay * base ^ (i + 1 + 1) = initial_delay * base ^ (i + 1) * base := by
      ring
    rw [this]
  · have hpos : 0 < initial_delay * base ^ (i + 1) :=
      mul_pos hd (pow_pos (lt_trans one_pos hb) (i + 1))
    exact (lt_mul_iff_one_lt_right hpos).2 hb

theorem retry_succeeds_after_k_waits_witness :
    (retry_wrapper succAfterTwoOp 1 2 false zeroRand 3).result =
        RetryResult.ok 37 ∧
      (retry_wrapper succAfterTwoOp 1 2 false zeroRand 3).waits =
        (List.range 2).map (fun i => (1 : ℚ) * 2 ^ (i + 1)) :=
  ⟨(retry_succeeds_after_k_waits succAfterTwoOp 1 2 zeroRand 3 2 37
      (fun i hi => if_pos hi) rfl (by norm_num) (by norm_num) (by norm_num)).1,
    (retry_succeeds_after_k_waits succAfterTwoOp 1 2 zeroRand 3 2 37
      (fun i hi => if_pos hi) rfl (by norm_num) (by norm_num) (by norm_num)).2.1⟩

/-- C4: an operation whose first invocation raises a status/validation-class
error makes the wrapper fail at once with `RequestRejected` — one invocation,
zero waits — with the message carrying the status code and the `"message"`
entry of the body; when the body has no message the text falls back to the
documentation pointer. -/
theorem retry_status_rejects_immediately {α : Type} (op : Nat → Except ApiError α)
    (initial_delay base : ℚ) (jitter : Bool) (rand : Nat → ℚ) (max_retries : Nat)
    (c : Int) (b : Option String)
    (h : op 0 = Except.error (ApiError.status c b)) :
    retry_wrapper op initial_delay base jitter rand max_retries =
        ⟨RetryResult.requestRejected (statusErrorMsg c b), [], 1⟩ ∧
      statusErrorMsg c none =
        "Error status " ++ toString c ++ " raised by OpenAI API: " ++ docPointer :=
  ⟨runRetry_status base jitter rand max_retries max_retries initial_delay h, rfl⟩

theorem retry_status_rejects_immediately_witness :
    retry_wrapper statusOp 1 2 false zeroRand 10 =
        ⟨RetryResult.requestRejected (statusErrorMsg 404 none), [], 1⟩ ∧
      statusErrorMsg 404 none =
        "Error status " ++ toString (404 : Int) ++ " raised by OpenAI API: " ++
          docPointer :=
  retry_status_rejects_immediately statusOp 1 2 false zeroRand 10 404 none rfl

/-! ### Truncation theorems -/

/-- C8: a message sequence already within budget is returned unchanged:
the loop guard `n_tokens > max_tokens` fails on entry. -/
theorem truncate_within_budget_id (messages : List Message)
    (encoder : String → List Nat) (model_name : String) (max_tokens : Int)
    (truncate : String) (n : Int)
    (h : count_tokens messages encoder model_name = Except.ok n)
    (hle : n ≤ max_tokens) :
    truncate_msgs_for_token_limit messages encoder model_name max_tokens truncate =
      some (Except.ok messages) := by
  unfold truncate_msgs_for_token_limit
  simp only [truncLoop, h]
  rw [if_neg (not_lt.2 hle)]

theorem truncate_within_budget_id_witness :
    truncate_msgs_for_token_limit [[("role", "system"), ("content", "a")]]
        charEncoder "gpt-3.5-turbo-0301" 20 "first" =
      some (Except.ok [[("role", "system"), ("content", "a")]]) :=
  truncate_within_budget_id [[("role", "system"), ("content", "a")]]
    charEncoder "gpt-3.5-turbo-0301" 20 "first" 13 (by decide) (by decide)

/-- C6: when the count exceeds the budget with exactly 2 messages left, the
truncator returns all but the last message; with exactly 1 message left it
returns that message unchanged. -/
theorem truncate_over_budget_edge_cases (encoder : String → List Nat)
    (model_name : String) (max_tokens : Int) (truncate : String)
    (m1 m2 m : Message) (n2 n1 : Int)
    (h2 : count_tokens [m1, m2] encoder model_name = Except.ok n2)
    (hgt2 : max_tokens < n2)
    (h1 : count_tokens [m] encoder model_name = Except.ok n1)
    (hgt1 : max_tokens < n1) :
    truncate_msgs_for_token_limit [m1, m2] encoder model_name max_tokens truncate =
        some (Except.ok [m1]) ∧
      truncate_msgs_for_token_limit [m] encoder model_name max_tokens truncate =
        some (Except.ok [m]) := by
  constructor
  · show truncLoop encoder model_name max_tokens truncate [m1] (2 + 1) [m1, m2] =
      some (Except.ok [m1])
    simp only [truncLoop, h2]
    rw [if_pos hgt2]
    simp
  · show truncLoop encoder model_name max_tokens truncate [m] (1 + 1) [m] =
      some (Except.ok [m])
    simp only [truncLoop, h1]
    rw [if_pos hgt1]
    simp

theorem truncate_over_budget_edge_cases_witness :
    truncate_msgs_for_token_limit
        [[("role", "system"), ("content", "a")], [("role", "user"), ("content", "b")]]
        charEncoder "gpt-3.5-turbo-0301" 3 "first" =
      some (Except.ok [[("role", "system"), ("content", "a")]]) :=
  (truncate_over_budget_edge_cases charEncoder "gpt-3.5-turbo-0301" 3 "first"
    [("role", "system"), ("content", "a")] [("role", "user"), ("content", "b")]
    [("role", "system"), ("content", "a")] 22 13
    (by decide) (by decide) (by decide) (by decide)).1

theorem truncLoop_total (encoder : String → List Nat) (model_name : String)
    (max_tokens : Int) (truncate : String) (sys_priming : List Message)
    (hmodel : strContains model_name "gpt-3.5-turbo" = true)
    (hsp : sys_priming.length = 1) :
    ∀ (fuel : Nat) (messages : List Message), messages ≠ [] →
      messages.length < fuel →
      ∃ r, truncLoop encoder model_name max_tokens truncate sys_priming fuel
        messages = some (Except.ok r) := by
  intro fuel
  induction fuel with
  | zero =>
    intro m _ hlt
    exact absurd hlt (Nat.not_lt_zero _)
  | succ f ih =>
    intro messages hne hlt
    have hct : count_tokens messages encoder model_name =
        Except.ok
          ((messages.foldl (fun acc m => acc + messageTokens encoder m) 0) + 2) := by
      unfold count_tokens
      rw [if_pos hmodel]
    by_cases hgt : max_tokens <
        (messages.foldl (fun acc m => acc + messageTokens encoder m) 0) + 2
    · by_cases hl2 : messages.length = 2
      · refine ⟨messages.dropLast, ?_⟩
        simp only [truncLoop, hct]
        rw [if_pos hgt, if_pos hl2]
      · by_cases hl1 : messages.length = 1
        · refine ⟨messages, ?_⟩
          simp only [truncLoop, hct]
          rw [if_pos hgt, if_neg hl2, if_pos hl1]
        · have hlen3 : 3 ≤ messages.length := by
            have : messages.length ≠ 0 :=
              fun h => hne (List.eq_nil_of_length_eq_zero h)
            omega
          have hlen' :
              (if truncate = "first" then sys_priming ++ messages.drop 2
                else sys_priming ++ (messages.drop 1).dropLast).length =
              messages.length - 1 := by
            by_cases ht : truncate = "first" <;>
              simp [ht, hsp, List.length_dropLast, List.length_drop] <;> omega
          have hne' :
              (if truncate = "first" then sys_priming ++ messages.drop 2
                else sys_priming ++ (messages.drop 1).dropLast) ≠ [] := by
            intro h
            rw [h] at hlen'
            simp at hlen'
            omega
          obtain ⟨r, hr⟩ := ih _ hne' (by omega)
          refine ⟨r, ?_⟩
          simp only [truncLoop, hct]
          rw [if_pos hgt, if_neg hl2, if_neg hl1, hr]
    · refine ⟨messages, ?_⟩
      simp only [truncLoop, hct]
      rw [if_neg hgt]

/-- C5: on every nonempty message sequence, for any budget and either
truncation flag, the truncator given a supported model reaches a normal
return — each loop iteration either returns through one of the two terminal
branches or shortens the sequence by one message, so the fuel
`messages.length + 1` never runs out and nothing is raised. -/
theorem truncate_terminates (messages : List Message)
    (encoder : String → List Nat) (model_name : String) (max_tokens : Int)
    (truncate : String) (hne : messages ≠ [])
    (hmodel : strContains model_name "gpt-3.5-turbo" = true) :
    ∃ r, truncate_msgs_for_token_limit messages encoder model_name max_tokens
      truncate = some (Except.ok r) := by
  have hsp : (messages.take 1).length = 1 := by
    rw [List.length_take]
    have : messages.length ≠ 0 := fun h => hne (List.eq_nil_of_length_eq_zero h)
    omega
  exact truncLoop_total encoder model_name max_tokens truncate (messages.take 1)
    hmodel hsp (messages.length + 1) messages hne (by omega)

theorem truncate_terminates_witness :
    ∃ r, truncate_msgs_for_token_limit
      [[("role", "system"), ("content", "a")], [("role", "user"), ("content", "b")]]
      charEncoder "gpt-3.5-turbo-0301" 3 "last" = some (Except.ok r) :=
  truncate_terminates
    [[("role", "system"), ("content", "a")], [("role", "user"), ("content", "b")]]
    charEncoder "gpt-3.5-turbo-0301" 3 "last" (by decide) (by decide)

theorem truncLoop_head {h0 : Message} (encoder : String → List Nat)
    (model_name : String) (max_tokens : Int) (truncate : String) :
    ∀ (fuel : Nat) (messages r : List Message),
      messages.head? = some h0 →
      truncLoop encoder model_name max_tokens truncate [h0] fuel messages =
        some (Except.ok r) →
      r ≠ [] ∧ r.head? = some h0 := by
  intro fuel
  induction fuel with
  | zero =>
    intro m r _ hr
    exact absurd hr (by simp [truncLoop])
  | succ f ih =>
    intro messages r hhead hr
    cases hct : count_tokens messages encoder model_name with
    | error e =>
      simp only [truncLoop, hct] at hr
      simp at hr
    | ok n =>
      simp only [truncLoop, hct] at hr
      by_cases hgt : max_tokens < n
      · rw [if_pos hgt] at hr
        by_cases hl2 : messages.length = 2
        · obtain ⟨a, b, rfl⟩ := List.length_eq_two.1 hl2
          obtain rfl : a = h0 := by simpa using hhead
          rw [if_pos hl2] at hr
          simp at hr
          exact ⟨by simp [← hr], by simp [← hr]⟩
        · by_cases hl1 : messages.length = 1
          · obtain ⟨a, rfl⟩ := List.length_eq_one.1 hl1
            obtain rfl : a = h0 := by simpa using hhead
            rw [if_neg hl2, if_pos hl1] at hr
            simp at hr
            exact ⟨by simp [← hr], by simp [← hr]⟩
          · rw [if_neg hl2, if_neg hl1] at hr
            refine ih _ r ?_ hr
            by_cases ht : truncate = "first" <;> simp [ht]
      · rw [if_neg hgt] at hr
        simp at hr
        refine ⟨?_, by rw [← hr]; exact hhead⟩
        intro hnil
        rw [hr, hnil] at hhead
        simp at hhead

/-- C7: on every nonempty input, with any budget, model and either
truncation flag, a normal return of the truncator is nonempty and keeps the
first (system-priming) message of the input in first position. -/
theorem truncate_preserves_first (messages : List Message)
    (encoder : String → List Nat) (model_name : String) (max_tokens : Int)
    (truncate : String) (r : List Message) (hne : messages ≠ [])
    (h : truncate_msgs_for_token_limit messages encoder model_name max_tokens
      truncate = some (Except.ok r)) :
    r ≠ [] ∧ r.head? = messages.head? := by
  obtain ⟨h0, rest, rfl⟩ : ∃ h0 rest, messages = h0 :: rest := by
    cases messages with
    | nil => exact absurd rfl hne
    | cons a l => exact ⟨a, l, rfl⟩
  unfold truncate_msgs_for_token_limit at h
  have := truncLoop_head encoder model_name max_tokens truncate
    ((h0 :: rest).length + 1) (h0 :: rest) r rfl (by simpa using h)
  exact ⟨this.1, by rw [this.2]; rfl⟩

theorem truncate_preserves_first_witness :
    ([[("role", "system"), ("content", "a")]] : List Message) ≠ [] ∧
      [[("role", "system"), ("content", "a")]].head? ≠ none ∧
      (∀ r : List Message,
        truncate_msgs_for_token_limit
            [[("role", "system"), ("content", "a")], [("role", "user"), ("content", "b")]]
            charEncoder "gpt-3.5-turbo-0301" 3 "first" = some (Except.ok r) →
        r ≠ [] ∧ r.head? =
          ([[("role", "system"), ("content", "a")], [("role", "user"), ("content", "b")]] :
            List Message).head?) :=
  ⟨by decide, by decide, fun r h =>
    truncate_preserves_first
      [[("role", "system"), ("content", "a")], [("role", "user"), ("content", "b")]]
      charEncoder "gpt-3.5-turbo-0301" 3 "first" r (by decide) h⟩

/-- C10: on the empty sequence the token count is exactly the fixed 2, every
loop iteration maps the empty sequence to itself, and so — for a supported
model — the truncator returns the empty sequence unchanged when
`max_tokens ≥ 2` but runs out of any amount of fuel (the Python loop never
terminates) when `max_tokens < 2`. -/
theorem truncate_empty_behaviour (encoder : String → List Nat)
    (model_name : String) (max_tokens : Int) (truncate : String)
    (hmodel : strContains model_name "gpt-3.5-turbo" = true) :
    count_tokens [] encoder model_name = Except.ok 2 ∧
      (max_tokens < 2 → ∀ fuel,
        truncLoop encoder model_name max_tokens truncate [] fuel [] = none) ∧
      (2 ≤ max_tokens →
        truncate_msgs_for_token_limit [] encoder model_name max_tokens truncate =
          some (Except.ok [])) ∧
      (max_tokens < 2 →
        truncate_msgs_for_token_limit [] encoder model_name max_tokens truncate =
          none) := by
  have hct : count_tokens [] encoder model_name = Except.ok 2 := by
    unfold count_tokens
    rw [if_pos hmodel]
    rfl
  have hnone : max_tokens < 2 → ∀ fuel,
      truncLoop encoder model_name max_tokens truncate [] fuel [] = none := by
    intro hlt fuel
    induction fuel with
    | zero => rfl
    | succ f ihf =>
      simp only [truncLoop, hct]
      rw [if_pos hlt]
      simpa using ihf
  refine ⟨hct, hnone, ?_, ?_⟩
  · intro hge
    unfold truncate_msgs_for_token_limit
    rw [show (([] : List Message).length + 1) = 0 + 1 by rfl]
    simp only [truncLoop, hct]
    rw [if_neg (not_lt.2 hge)]
  · intro hlt
    exact hnone hlt 1

theorem truncate_empty_behaviour_witness :
    count_tokens [] charEncoder "gpt-3.5-turbo-0301" = Except.ok 2 ∧
      truncate_msgs_for_token_limit [] charEncoder "gpt-3.5-turbo-0301" 5 "first" =
        some (Except.ok []) ∧
      truncate_msgs_for_token_limit [] charEncoder "gpt-3.5-turbo-0301" 1 "first" =
        none :=
  ⟨(truncate_empty_behaviour charEncoder "gpt-3.5-turbo-0301" 5 "first"
      (by decide)).1,
    (truncate_empty_behaviour charEncoder "gpt-3.5-turbo-0301" 5 "first"
      (by decide)).2.2.1 (by norm_num),
    (truncate_empty_behaviour charEncoder "gpt-3.5-turbo-0301" 1 "first"
      (by decide)).2.2.2 (by norm_num)⟩

/-! ### The token-count formula -/

theorem messageTokens_foldl (encoder : String → List Nat) (m : Message) :
    ∀ init : Int,
      m.foldl (fun acc kv =>
        acc + ((encoder kv.2).length : Int) +
          (if kv.1 = "name" then -1 else 0)) init =
      init + (m.map (fun kv => ((encoder kv.2).length : Int))).sum -
        (m.countP (fun kv => kv.1 == "name") : Int) := by
  induction m with
  | nil =>
    intro init
    simp
  | cons kv t ih =>
    intro init
    simp only [List.foldl_cons, List.map_cons, List.sum_cons, List.countP_cons]
    rw [ih]
    by_cases hname : kv.1 = "name" <;> simp [hname] <;> push_cast <;> ring

theorem messageTokens_eq_spec (encoder : String → List Nat) (m : Message)
    (h : m.countP (fun kv => kv.1 == "name") ≤ 1) :
    messageTokens encoder m = specMessageTokens encoder m := by
  unfold messageTokens specMessageTokens
  rw [messageTokens_foldl]
  have hcount : (m.countP (fun kv => kv.1 == "name") : Int) =
      (if m.any (fun kv => kv.1 == "name") then 1 else 0) := by
    by_cases hany : m.any (fun kv => kv.1 == "name") = true
    · have hpos : 0 < m.countP (fun kv => kv.1 == "name") := by
        rw [List.countP_pos]
        simpa [List.any_eq_true] using hany
      have : m.countP (fun kv => kv.1 == "name") = 1 := by omega
      rw [this, if_pos hany]
      rfl
    · have : m.countP (fun kv => kv.1 == "name") = 0 := by
        rw [List.countP_eq_zero]
        intro a ha hpa
        exact hany (List.any_eq_true.2 ⟨a, ha, hpa⟩)
      rw [this, if_neg hany]
      rfl
  rw [hcount]

theorem count_tokens_foldl (encoder : String → List Nat)
    (messages : List Message) :
    ∀ init : Int,
      messages.foldl (fun acc m => acc + messageTokens encoder m) init =
        init + (messages.map (messageTokens encoder)).sum := by
  induction messages with
  | nil =>
    intro init
    simp
  | cons m t ih =>
    intro init
    simp only [List.foldl_cons, List.map_cons, List.sum_cons]
    rw [ih]
    ring

/-- C9: for any model name containing the chat-family marker, the token
count equals the sum over messages of (4 plus the encoded length of every
field value, minus 1 if a name field is present — messages are dicts, so a
key occurs at most once) plus a final 2; in particular on
`[{"role": "system", "content": "a"}]` with model `gpt-3.5-turbo-0301` it
equals `4 + tokens("system") + tokens("a") + 2` for every encoder. -/
theorem count_tokens_matches_formula (messages : List Message)
    (encoder : String → List Nat) (model_name : String)
    (hmodel : strContains model_name "gpt-3.5-turbo" = true)
    (hname : ∀ m ∈ messages, m.countP (fun kv => kv.1 == "name") ≤ 1) :
    count_tokens messages encoder model_name =
        Except.ok (specTokenCount encoder messages) ∧
      count_tokens [[("role", "system"), ("content", "a")]] encoder
          "gpt-3.5-turbo-0301" =
        Except.ok (4 + ((encoder "system").length : Int) +
          ((encoder "a").length : Int) + 2) := by
  constructor
  · unfold count_tokens
    rw [if_pos hmodel, count_tokens_foldl]
    unfold specTokenCount
    have hmap : messages.map (messageTokens encoder) =
        messages.map (specMessageTokens encoder) := by
      induction messages with
      | nil => rfl
      | cons m t iht =>
        simp only [List.map_cons]
        rw [messageTokens_eq_spec encoder m (hname m (by simp)),
          iht (fun x hx => hname x (by simp [hx]))]
    rw [hmap]
    congr 1
    ring
  · unfold count_tokens
    rw [if_pos (by decide)]
    congr 1
    rw [count_tokens_foldl]
    simp only [List.map_cons, List.map_nil, List.sum_cons, List.sum_nil]
    unfold messageTokens
    simp only [List.foldl_cons, List.foldl_nil]
    rw [if_neg (show ¬("role" = "name") by decide),
      if_neg (show ¬("content" = "name") by decide)]
    ring

theorem count_tokens_matches_formula_witness :
    count_tokens [[("role", "system"), ("content", "a")]] charEncoder
        "gpt-3.5-turbo-0301" =
      Except.ok (4 + ((charEncoder "system").length : Int) +
        ((charEncoder "a").length : Int) + 2) :=
  (count_tokens_matches_formula [[("role", "system"), ("content", "a")]]
    charEncoder "gpt-3.5-turbo-0301" (by decide)
    (by intro m hm; simp at hm; rw [hm]; decide)).2

/-! ### The retry-budget computation -/

/-- C3: with the defaults `initial_delay = 1`, `hour_budget = 0.3`,
`exponential_base = 2` the computed budget is the fixed integer
`round(log 1080 / log 2) = 10 ≥ 1`, and whenever `math.log` would raise a
`ValueError` — a non-positive argument on either logarithm — the fallback
yields 10. -/
theorem compute_max_retries_value :
    compute_max_retries 1 (3 / 10) 2 = 10 ∧
      1 ≤ compute_max_retries 1 (3 / 10) 2 ∧
      ∀ initial_delay hour_budget exponential_base : ℝ,
        ((hour_budget * 3600) / initial_delay ≤ 0 ∨ exponential_base ≤ 0) →
        compute_max_retries initial_delay hour_budget exponential_base = 10 := by
  have hcond : ¬((((3 : ℝ) / 10) * 3600) / 1 ≤ 0 ∨ (2 : ℝ) ≤ 0) := by norm_num
  have hlog2 : (0 : ℝ) < Real.log 2 := Real.log_pos (by norm_num)
  have hupper : Real.log ((((3 : ℝ) / 10) * 3600) / 1) / Real.log 2 < 21 / 2 := by
    rw [show (((3 : ℝ) / 10) * 3600) / 1 = 1080 by norm_num, div_lt_iff hlog2]
    have ha : Real.log ((1080 : ℝ) ^ (2 : ℕ)) < Real.log ((2 : ℝ) ^ (21 : ℕ)) :=
      Real.log_lt_log (by positivity) (by norm_num)
    rw [Real.log_pow, Real.log_pow] at ha
    push_cast at ha
    linarith
  have hlower : (19 : ℝ) / 2 ≤ Real.log ((((3 : ℝ) / 10) * 3600) / 1) / Real.log 2 := by
    rw [show (((3 : ℝ) / 10) * 3600) / 1 = 1080 by norm_num, le_div_iff hlog2]
    have hb : Real.log ((2 : ℝ) ^ (19 : ℕ)) ≤ Real.log ((1080 : ℝ) ^ (2 : ℕ)) :=
      (Real.log_le_log_iff (by positivity) (by positivity)).2 (by norm_num)
    rw [Real.log_pow, Real.log_pow] at hb
    push_cast at hb
    linarith
  have hround : round (Real.log ((((3 : ℝ) / 10) * 3600) / 1) / Real.log 2) = 10 := by
    rw [round_eq, Int.floor_eq_iff]
    constructor
    · push_cast
      linarith
    · push_cast
      linarith
  have hmain : compute_max_retries 1 (3 / 10) 2 = 10 := by
    unfold compute_max_retries
    rw [if_neg hcond, hround]
    norm_num
  refine ⟨hmain, by rw [hmain]; norm_num, fun d b e h => ?_⟩
  unfold compute_max_retries
  rw [if_pos h]
  norm_num

theorem compute_max_retries_value_witness :
    compute_max_retries 1 (3 / 10) 2 = 10 ∧ compute_max_retries 1 0 2 = 10 :=
  ⟨compute_max_retries_value.1,
    compute_max_retries_value.2.2 1 0 2 (by norm_num)⟩

end OpenAIHelpers
